import Mathlib

/-!
Verification of the code-analysis core of the analyzer-agent API.

The HTTP route layer (`app/api/codebase_analyzer.py`, `app/api/analyzer_agent.py`)
and the pydantic data model (`app/models/analyze_models.py`) are embedded from
their sources.  The analysis engine they import (`app.modules.code_analyzer`:
`scanner.find_python_files`, `parser.parse_python_file`,
`graph_builder.build_dependency_graph`, `analyzer.summarize_analysis`) is not in
the tree; those four definitions are modelled from the design document
(sections 4.1-4.4) and are marked `Modelled from the spec:` below.

Python dicts are embedded as association lists in insertion order; dict lookup
corresponds to `List.lookup` whenever the key list is `Nodup`, which the
theorems that need it carry as a hypothesis (the spec itself declares base-name
collisions a known gap).  File contents are abstracted to either a well-formed
list of extracted function records or a malformed blob carrying a syntax
diagnostic, which is exactly the granularity at which the Parser contract of
the spec distinguishes inputs.
-/

namespace AnalyzerApi

/-- record of one function extracted from a source file: its name, exact source
text, docstring, and the set of names referenced in its body
(spec section 3, `FunctionRecord`). -/
structure FunctionDef where
  name : String
  code : String
  docstring : String
  refs : List String
deriving DecidableEq

/-- content of a source file, abstracting concrete Python syntax: either
well-formed with its extractable function records, or malformed with a syntax
diagnostic. -/
inductive SourceContent where
  | wellFormed (functions : List FunctionDef)
  | malformed (diag : String)
deriving DecidableEq

/-- result of parsing one file: its function records plus an optional per-file
diagnostic. -/
structure ParsedFile where
  functions : List FunctionDef
  parseError : Option String
deriving DecidableEq

/-- Modelled from the spec: `app.modules.code_analyzer.parser.parse_python_file`
is imported by the route code but absent from the tree.  Per the Parser
contract (spec 4.2, 7), a well-formed file yields its function records and no
diagnostic; a malformed file yields an empty function list plus a per-file
diagnostic, never an exception. -/
def parse_python_file (c : SourceContent) : ParsedFile :=
  match c with
  | .wellFormed fs => { functions := fs, parseError := none }
  | .malformed d => { functions := [], parseError := some d }

/-- filesystem model: the directory paths that exist and the source files as
(path, content) pairs.  Paths are slash-separated strings. -/
structure FS where
  dirs : List String
  files : List (String × SourceContent)
deriving DecidableEq

/-- embedding of `os.path.exists`. -/
def pathExists (fs : FS) (p : String) : Bool :=
  decide (p ∈ fs.files.map Prod.fst) || fs.dirs.contains p

/-- embedding of `os.path.isdir`. -/
def isDir (fs : FS) (p : String) : Bool := fs.dirs.contains p

/-- content of the file at path `p`; a path not present as a file reads as a
malformed blob (the analysis routes only read paths they have checked). -/
def getContent (fs : FS) (p : String) : SourceContent :=
  (fs.files.lookup p).getD (.malformed "unreadable")

/-- embedding of `str.endswith`. -/
def strEndsWith (p suff : String) : Bool := suff.data.isSuffixOf p.data

/-- embedding of `os.path.basename`: the part of the path after the last
slash. -/
def basename (p : String) : String :=
  ⟨(p.data.reverse.takeWhile (fun c => !(c == '/'))).reverse⟩

/-- path `p` lies (recursively) under the directory `root`. -/
def isUnder (root p : String) : Bool := (root ++ "/").data.isPrefixOf p.data

/-- lexicographic order on paths, via the character list; used to fix the
deterministic scan order the spec requires. -/
def pathLe (a b : String) : Prop := a.data ≤ b.data

instance : DecidableRel pathLe := fun a b =>
  inferInstanceAs (Decidable (a.data ≤ b.data))

instance : IsTotal String pathLe := ⟨fun a b => le_total a.data b.data⟩

instance : IsTrans String pathLe := ⟨fun _ _ _ h h' => le_trans h h'⟩

instance : IsAntisymm String pathLe :=
  ⟨fun _ _ h h' => String.toList_inj.mp (le_antisymm h h')⟩

/-- Modelled from the spec: `app.modules.code_analyzer.scanner.find_python_files`
is imported by the route code but absent from the tree.  Per the Scanner
contract (spec 4.1), it enumerates the files under the root recursively,
keeps those with the `.py` extension, and returns them in a deterministic
lexicographic order. -/
def find_python_files (fs : FS) (root : String) : List String :=
  List.insertionSort pathLe
    ((fs.files.map Prod.fst).filter (fun p => isUnder root p && strEndsWith p ".py"))

/-- node of the dependency graph: (defining file path, function name). -/
abbrev Node := String × String

/-- does the parsed file define a function with the given name? -/
def definesFun (pf : ParsedFile) (n : String) : Bool :=
  pf.functions.any (fun fd => fd.name == n)

/-- Modelled from the spec: name resolution of the graph builder (spec 4.3).
A referenced name resolves to the caller's own file when that file defines it,
otherwise to the first file in scan order that defines it; a name defined
nowhere in the analysis set resolves to nothing and produces no edge. -/
def resolveRef (fileData : List (String × ParsedFile)) (caller n : String) :
    Option String :=
  match fileData.find? (fun pc => pc.1 == caller && definesFun pc.2 n) with
  | some pc => some pc.1
  | none => (fileData.find? (fun pc => definesFun pc.2 n)).map Prod.fst

/-- Modelled from the spec:
`app.modules.code_analyzer.graph_builder.build_dependency_graph` is imported by
the route code but absent from the tree.  Per spec 4.3 it produces a directed
graph at function granularity: one edge per resolved reference from a function
to an analyzed function other than itself, with duplicate edges collapsed. -/
def build_dependency_graph (fileData : List (String × ParsedFile)) :
    List (Node × Node) :=
  (fileData.flatMap (fun pc =>
    pc.2.functions.flatMap (fun fd =>
      fd.refs.filterMap (fun r =>
        match resolveRef fileData pc.1 r with
        | some q =>
          if (q, r) = ((pc.1, fd.name) : Node) then none
          else some (((pc.1, fd.name) : Node), ((q, r) : Node))
        | none => none)))).dedup

/-- out-degree of a node: number of edges of `g` originating at `v`. -/
def fanOut (g : List (Node × Node)) (v : Node) : Nat :=
  (g.filter (fun e => decide (e.1 = v))).length

/-- in-degree of a node: number of edges of `g` terminating at `v`. -/
def fanIn (g : List (Node × Node)) (v : Node) : Nat :=
  (g.filter (fun e => decide (e.2 = v))).length

/-- model `FunctionInfo` of `app/models/analyze_models.py`: one function of the
report, enriched with the graph metrics. -/
structure FunctionInfo where
  name : String
  code : String
  docstring : String
  fan_in : Nat
  fan_out : Nat
  is_entry_point : Bool
deriving DecidableEq

/-- model `FileAnalysisResult` of `app/models/analyze_models.py`: the per-file value
of the report, plus the per-file diagnostic the spec (4.2, 7) attaches to a
malformed file's entry. -/
structure FileAnalysisResult where
  file : String
  functions : List FunctionInfo
  error : Option String
deriving DecidableEq

/-- Modelled from the spec: the per-function enrichment performed by the
Analyzer (spec 4.4): fan-out and fan-in are the degrees of the function's node
in the dependency graph, and the entry-point flag is fan-in equal to zero. -/
def mkFunctionInfo (g : List (Node × Node)) (path : String) (fd : FunctionDef) :
    FunctionInfo :=
  { name := fd.name
    code := fd.code
    docstring := fd.docstring
    fan_in := fanIn g (path, fd.name)
    fan_out := fanOut g (path, fd.name)
    is_entry_point := fanIn g (path, fd.name) == 0 }

/-- Modelled from the spec:
`app.modules.code_analyzer.analyzer.summarize_analysis` is imported by the
route code but absent from the tree.  Per spec 4.4 it assembles the report:
one entry per parsed file, keyed by the file's base name, holding the base
name, the enriched function records, and the file's parse diagnostic if
any. -/
def summarize_analysis (g : List (Node × Node))
    (fileData : List (String × ParsedFile)) :
    List (String × FileAnalysisResult) :=
  fileData.map (fun pc =>
    (basename pc.1,
      { file := basename pc.1
        functions := pc.2.functions.map (mkFunctionInfo g pc.1)
        error := pc.2.parseError }))

/-- the error surface of the analysis routes, tagged with the spec's taxonomy
names; each constructor carries the detail string the route code puts in the
`HTTPException`. -/
inductive AnalyzeError where
  | notFound (detail : String)
  | wrongFileType (detail : String)
  | noSourceFiles (detail : String)
  | noAnalysisAvailable (detail : String)
deriving DecidableEq

/-- HTTP status code each error is raised with in `codebase_analyzer.py`. -/
def AnalyzeError.status : AnalyzeError → Nat
  | .notFound _ => 404
  | .wrongFileType _ => 400
  | .noSourceFiles _ => 404
  | .noAnalysisAvailable _ => 500

/-- detail string of the raised `HTTPException`. -/
def AnalyzeError.detail : AnalyzeError → String
  | .notFound d => d
  | .wrongFileType d => d
  | .noSourceFiles d => d
  | .noAnalysisAvailable d => d

/-- model `AnalysisResponse` of `app/models/analyze_models.py`: the report, a map
from file identifier to per-file result. -/
structure AnalysisResponse where
  results : List (String × FileAnalysisResult)
deriving DecidableEq

instance {ε α : Type} [DecidableEq ε] [DecidableEq α] :
    DecidableEq (Except ε α) := fun a b =>
  match a, b with
  | .ok x, .ok y =>
    if h : x = y then .isTrue (by rw [h])
    else .isFalse (fun hc => h (Except.ok.inj hc))
  | .error x, .error y =>
    if h : x = y then .isTrue (by rw [h])
    else .isFalse (fun hc => h (Except.error.inj hc))
  | .ok _, .error _ => .isFalse (fun hc => Except.noConfusion hc)
  | .error _, .ok _ => .isFalse (fun hc => Except.noConfusion hc)

/-- the report computed inside `analyze_file` before the re-keying step: the
single requested file parsed against the minimal one-node, zero-edge graph the
route constructs. -/
def single_file_report (fs : FS) (p : String) :
    List (String × FileAnalysisResult) :=
  summarize_analysis [] [(p, parse_python_file (getContent fs p))]

/-- route `analyze_file` of `app/api/codebase_analyzer.py`: existence check, extension
check, parse of the one file against a minimal graph with a single node and no
edges, then re-keying of the report to the file's base name. -/
def analyze_file (fs : FS) (file_path : String) :
    Except AnalyzeError AnalysisResponse :=
  if ¬ pathExists fs file_path then
    .error (.notFound ("File " ++ file_path ++ " does not exist"))
  else if ¬ strEndsWith file_path ".py" then
    .error (.wrongFileType ("File " ++ file_path ++ " is not a Python file"))
  else
    match (single_file_report fs file_path).lookup (basename file_path) with
    | some v => .ok { results := [(basename file_path, v)] }
    | none =>
      .error (.noAnalysisAvailable
        ("No analysis available for " ++ basename file_path))

/-- the file list, parsed records and dependency graph `analyze_directory`
computes for a directory. -/
def directoryFileData (fs : FS) (d : String) : List (String × ParsedFile) :=
  (find_python_files fs d).map (fun f => (f, parse_python_file (getContent fs f)))

/-- dependency graph of a directory analysis. -/
def directoryGraph (fs : FS) (d : String) : List (Node × Node) :=
  build_dependency_graph (directoryFileData fs d)

/-- the report a directory analysis computes. -/
def directoryReport (fs : FS) (d : String) : List (String × FileAnalysisResult) :=
  summarize_analysis (directoryGraph fs d) (directoryFileData fs d)

/-- route `analyze_directory` of `app/api/codebase_analyzer.py`: existence and
directory checks, scan, batch parse, graph construction, summary. -/
def analyze_directory (fs : FS) (directory_path : String) :
    Except AnalyzeError AnalysisResponse :=
  if ¬ (pathExists fs directory_path && isDir fs directory_path) then
    .error (.notFound ("Directory " ++ directory_path ++ " does not exist"))
  else if (find_python_files fs directory_path).isEmpty then
    .error (.noSourceFiles ("No Python files found in " ++ directory_path))
  else
    .ok ⟨directoryReport fs directory_path⟩

/-- model `AnalyzerAgentRequest` of `app/models/analyzer_agent_models.py`. -/
structure AnalyzerAgentRequest where
  query : String
  file_path : Option String
  directory_path : Option String
  code_analysis : Option (List (String × FileAnalysisResult))
deriving DecidableEq

/-- model `AnalyzerAgentResponse` of `app/models/analyzer_agent_models.py`: every
field optional; function summaries are (name, explanation) pairs. -/
structure AnalyzerAgentResponse where
  overall_analysis : Option String := none
  important_functions : Option (List (String × String)) := none
  summarized_functions : Option (List (String × String)) := none
  function_summary : Option (List (String × String)) := none
  markdown : Option String := none
  error : Option String := none
deriving DecidableEq

/-- a raised Python exception as seen by the blanket handler; the analysis
routes only raise `HTTPException(status_code, detail)`. -/
inductive PyExc where
  | httpExc (status : Nat) (detail : String)
deriving DecidableEq

/-- rendering `str(e)` of a starlette `HTTPException`: "status_code: detail". -/
def excStr : PyExc → String
  | .httpExc s d => toString s ++ ": " ++ d

/-- Python truthiness of an optional dict (`if request.code_analysis:`):
`None` and the empty dict are falsy. -/
def optDictTruthy (o : Option (List (String × FileAnalysisResult))) : Bool :=
  match o with
  | none => false
  | some l => !l.isEmpty

/-- Python truthiness of an optional string (`if request.file_path:`):
`None` and the empty string are falsy. -/
def optStrTruthy (o : Option String) : Bool :=
  match o with
  | none => false
  | some s => !(s == "")

/-- the `HTTPException` an analysis route failure raises. -/
def toPyExc (e : AnalyzeError) : PyExc := .httpExc e.status e.detail

/-- body of the `try` block of `explain_code` in
`app/api/analyzer_agent.py`: pick the code analysis from the request or
compute it from the given path, then hand it to the explanation agent.  The
agent (an external language-model call) is abstracted as a function from the
query and the analysis to a response. -/
def explainCodeInner (fs : FS)
    (agent : String → List (String × FileAnalysisResult) → AnalyzerAgentResponse)
    (req : AnalyzerAgentRequest) : Except PyExc AnalyzerAgentResponse := do
  let code_data ←
    if optDictTruthy req.code_analysis then
      pure (req.code_analysis.getD [])
    else if optStrTruthy req.file_path then
      match analyze_file fs (req.file_path.getD "") with
      | .ok resp => pure resp.results
      | .error e => throw (toPyExc e)
    else if optStrTruthy req.directory_path then
      match analyze_directory fs (req.directory_path.getD "") with
      | .ok resp => pure resp.results
      | .error e => throw (toPyExc e)
    else
      throw (.httpExc 400
        "Either file_path, directory_path, or code_analysis must be provided")
  if code_data.isEmpty then
    pure { error := some "No valid code analysis data was provided." }
  else
    pure (agent req.query code_data)

/-- outcome of one call of a route: either an `HTTPException` propagated to
the framework (an error-status response) or a normal response body. -/
inductive EndpointOutcome where
  | raised (status : Nat) (detail : String)
  | response (body : AnalyzerAgentResponse)
deriving DecidableEq

/-- route `explain_code` of `app/api/analyzer_agent.py`: the whole body runs inside
`try: ... except Exception as e: return {"error": str(e)}`, so every raised
exception - `HTTPException` included - is turned into a normal response whose
body only carries the error string. -/
def explain_code (fs : FS)
    (agent : String → List (String × FileAnalysisResult) → AnalyzerAgentResponse)
    (req : AnalyzerAgentRequest) : EndpointOutcome :=
  match explainCodeInner fs agent req with
  | .ok r => .response r
  | .error e => .response { error := some (excStr e) }

/-- route `analyze_uploaded_file` of `app/api/codebase_analyzer.py`: extension check
on the original filename, parse of the temporary copy against the minimal
graph, then re-keying of the entry to the original filename with the entry's
`file` field overwritten to match. -/
def analyze_uploaded_file (filename : String) (content : SourceContent)
    (temp_path : String) : Except AnalyzeError AnalysisResponse :=
  if ¬ strEndsWith filename ".py" then
    .error (.wrongFileType ("File " ++ filename ++ " is not a Python file"))
  else
    match (summarize_analysis [] [(temp_path, parse_python_file content)]).lookup
        (basename temp_path) with
    | some v => .ok { results := [(filename, { v with file := filename })] }
    | none =>
      .error (.noAnalysisAvailable ("No analysis available for " ++ filename))

/-- the per-file entry a single-file analysis computes: every metric is taken
from the minimal zero-edge graph. -/
def singleEntry (fs : FS) (p : String) : FileAnalysisResult :=
  { file := basename p
    functions :=
      (parse_python_file (getContent fs p)).functions.map (mkFunctionInfo [] p)
    error := (parse_python_file (getContent fs p)).parseError }

/-! concrete fixtures used by the witnesses and the counterexample -/

/-- a function `foo` whose body references `bar`. -/
def fooDefW : FunctionDef := ⟨"foo", "def foo(): bar()", "", ["bar"]⟩

/-- a function `bar` with no references. -/
def barDefW : FunctionDef := ⟨"bar", "def bar(): pass", "", []⟩

/-- a filesystem with a directory `d` holding one well-formed source file
whose `foo` calls its sibling `bar`, an empty directory `e`, and a stray
non-Python file. -/
def fsBig : FS :=
  { dirs := ["d", "e"]
    files := [("d/a.py", .wellFormed [fooDefW, barDefW]),
      ("notes.txt", .wellFormed [])] }

/-- parsed records of `fsBig`'s directory `d`. -/
def fdW : List (String × ParsedFile) := [("d/a.py", ⟨[fooDefW, barDefW], none⟩)]

/-- dependency graph of `fsBig`'s directory `d`: the one resolved edge from
`foo` to `bar`. -/
def gW : List (Node × Node) := [(("d/a.py", "foo"), ("d/a.py", "bar"))]

/-- entry of `d/a.py` in the single-file report: the minimal graph has no
edges, so every metric is zero. -/
def entryFileW : FileAnalysisResult :=
  ⟨"a.py", [⟨"foo", "def foo(): bar()", "", 0, 0, true⟩,
    ⟨"bar", "def bar(): pass", "", 0, 0, true⟩], none⟩

/-- single-file response for `d/a.py` of `fsBig`. -/
def respFileW : AnalysisResponse := ⟨[("a.py", entryFileW)]⟩

/-- entry of `d/a.py` in the directory report: the resolved edge foo -> bar
gives bar fan-in one. -/
def entryDirW : FileAnalysisResult :=
  ⟨"a.py", [⟨"foo", "def foo(): bar()", "", 0, 1, true⟩,
    ⟨"bar", "def bar(): pass", "", 1, 0, false⟩], none⟩

/-- directory response for `d` of `fsBig`. -/
def respDirW : AnalysisResponse := ⟨[("a.py", entryDirW)]⟩

/-- the `bar` row of `entryDirW`. -/
def barInfoDirW : FunctionInfo := ⟨"bar", "def bar(): pass", "", 1, 0, false⟩

/-- uploaded content used by the upload witness. -/
def contentW : SourceContent := .wellFormed [⟨"baz", "def baz(): pass", "", []⟩]

/-- entry the upload route produces for `contentW` under original name
`orig.py`. -/
def entryUpW : FileAnalysisResult :=
  ⟨"orig.py", [⟨"baz", "def baz(): pass", "", 0, 0, true⟩], none⟩

/-- a well-formed function for the malformed-batch fixture. -/
def gDefW : FunctionDef := ⟨"g", "def g(): pass", "", []⟩

/-- a directory `m` with one well-formed and one malformed source file. -/
def fsMal : FS :=
  { dirs := ["m"]
    files := [("m/good.py", .wellFormed [gDefW]),
      ("m/bad.py", .malformed "SyntaxError: invalid syntax")] }

/-- two isolated functions for the independence fixtures. -/
def f1DefW : FunctionDef := ⟨"f1", "def f1(): pass", "", []⟩

/-- second isolated function. -/
def f2DefW : FunctionDef := ⟨"f2", "def f2(): pass", "", []⟩

/-- a directory `p` with two source files that reference nothing. -/
def fsIso : FS :=
  { dirs := ["p"]
    files := [("p/a.py", .wellFormed [f1DefW]), ("p/b.py", .wellFormed [f2DefW])] }

/-- the same filesystem as `fsIso` with its file list enumerated in the
opposite order. -/
def fsIsoSwap : FS :=
  { dirs := ["p"]
    files := [("p/b.py", .wellFormed [f2DefW]), ("p/a.py", .wellFormed [f1DefW])] }

/-! helper lemmas shared by the claim theorems -/

/-- a successful lookup's pair is a member of the association list. -/
theorem mem_of_lookup {α β : Type} [BEq α] [LawfulBEq α] {l : List (α × β)}
    {k : α} {v : β} (h : l.lookup k = some v) : (k, v) ∈ l := by
  obtain ⟨l₁, l₂, rfl, -⟩ := List.lookup_eq_some_iff.mp h
  exact List.mem_append_right _ (List.mem_cons_self _ _)

/-- every entry of the summary comes from one parsed file and has the
canonical shape. -/
theorem summarize_mem {g : List (Node × Node)}
    {fd : List (String × ParsedFile)} {kv : String × FileAnalysisResult}
    (h : kv ∈ summarize_analysis g fd) :
    ∃ pc ∈ fd,
      kv = (basename pc.1,
        { file := basename pc.1
          functions := pc.2.functions.map (mkFunctionInfo g pc.1)
          error := pc.2.parseError }) := by
  obtain ⟨pc, hpc, hkv⟩ := List.mem_map.mp h
  exact ⟨pc, hpc, hkv.symm⟩

/-- what the single-file report holds at the requested base name. -/
theorem single_file_report_lookup (fs : FS) (p : String) :
    (single_file_report fs p).lookup (basename p) = some (singleEntry fs p) := by
  simp [single_file_report, summarize_analysis, singleEntry, List.lookup_cons]

/-- evaluation of `analyze_file` on an existing `.py` path: returns the singleton re-keyed
report. -/
theorem analyze_file_eq_ok {fs : FS} {p : String}
    (h1 : pathExists fs p = true) (h2 : strEndsWith p ".py" = true) :
    analyze_file fs p = .ok ⟨[(basename p, singleEntry fs p)]⟩ := by
  unfold analyze_file
  rw [if_neg (by simp [h1]), if_neg (by simp [h2]), single_file_report_lookup]

/-- a successful `analyze_file` passed both guards and returns the re-keyed
singleton report. -/
theorem analyze_file_ok {fs : FS} {p : String} {r : AnalysisResponse}
    (h : analyze_file fs p = .ok r) :
    pathExists fs p = true ∧ strEndsWith p ".py" = true ∧
      ∃ v, (single_file_report fs p).lookup (basename p) = some v ∧
        r.results = [(basename p, v)] := by
  unfold analyze_file at h
  split at h
  · exact absurd h (fun hc => Except.noConfusion hc)
  · split at h
    · exact absurd h (fun hc => Except.noConfusion hc)
    · rename_i h1 h2
      refine ⟨by simpa using h1, by simpa using h2, ?_⟩
      revert h
      split
      · rename_i v hv
        intro h
        exact ⟨v, hv, by rw [← Except.ok.inj h]⟩
      · intro h
        exact absurd h (fun hc => Except.noConfusion hc)

/-- a successful `analyze_directory` returns exactly the summary of the
scanned directory. -/
theorem analyze_directory_ok {fs : FS} {d : String} {r : AnalysisResponse}
    (h : analyze_directory fs d = .ok r) :
    r.results = directoryReport fs d := by
  unfold analyze_directory at h
  split at h
  · exact absurd h (fun hc => Except.noConfusion hc)
  · split at h
    · exact absurd h (fun hc => Except.noConfusion hc)
    · rw [← Except.ok.inj h]

/-- evaluation of `analyze_directory`: it succeeds on an existing directory with at least one
source file. -/
theorem analyze_directory_eq_ok {fs : FS} {d : String}
    (h1 : pathExists fs d = true) (h2 : isDir fs d = true)
    (h3 : find_python_files fs d ≠ []) :
    analyze_directory fs d = .ok ⟨directoryReport fs d⟩ := by
  unfold analyze_directory
  rw [if_neg, if_neg]
  · simpa [List.isEmpty_iff] using h3
  · simp [h1, h2]

/-- keys of the parsed records are the scanned files. -/
theorem directoryFileData_keys (fs : FS) (d : String) :
    (directoryFileData fs d).map (fun pc => basename pc.1)
      = (find_python_files fs d).map basename := by
  unfold directoryFileData
  rw [List.map_map]
  rfl

/-- keys of the directory report are the base names of the scanned files, in
scan order. -/
theorem directoryReport_keys (fs : FS) (d : String) :
    (directoryReport fs d).map Prod.fst
      = (find_python_files fs d).map basename := by
  unfold directoryReport summarize_analysis
  rw [List.map_map, ← directoryFileData_keys]
  rfl

/-- under distinct base names, the summary's entry for a parsed file is found
at the file's base name. -/
theorem summarize_lookup {g : List (Node × Node)}
    {fd : List (String × ParsedFile)} {p : String} {pf : ParsedFile}
    (hmem : (p, pf) ∈ fd)
    (hnd : (fd.map (fun pc => basename pc.1)).Nodup) :
    (summarize_analysis g fd).lookup (basename p)
      = some ⟨basename p, pf.functions.map (mkFunctionInfo g p), pf.parseError⟩ := by
  induction fd with
  | nil => cases hmem
  | cons hd tl ih =>
    rw [List.map_cons] at hnd
    rcases List.mem_cons.mp hmem with heq | htl
    · cases heq
      rw [summarize_analysis, List.map_cons, List.lookup_cons]
      simp
    · have hne : (basename p == basename hd.1) = false := by
        rw [beq_eq_false_iff_ne]
        intro hc
        have hpm : basename p ∈ tl.map (fun pc => basename pc.1) := by
          have := List.mem_map_of_mem (fun pc : String × ParsedFile => basename pc.1) htl
          exact this
        rw [hc] at hpm
        exact (List.nodup_cons.mp hnd).1 hpm
      rw [summarize_analysis, List.map_cons, List.lookup_cons, hne]
      exact ih htl (List.nodup_cons.mp hnd).2

/-- a function node of a file no resolved edge touches carries the same
metrics in any graph as in the empty graph. -/
theorem mkFunctionInfo_isolated {g : List (Node × Node)} {f : String}
    (hiso : ∀ e ∈ g, e.1.1 ≠ f ∧ e.2.1 ≠ f) (fdef : FunctionDef) :
    mkFunctionInfo g f fdef = mkFunctionInfo [] f fdef := by
  have hin : fanIn g (f, fdef.name) = 0 := by
    unfold fanIn
    rw [List.length_eq_zero, List.filter_eq_nil_iff]
    intro e he hc
    exact (hiso e he).2 (by rw [show e.2 = (f, fdef.name) from of_decide_eq_true hc])
  have hout : fanOut g (f, fdef.name) = 0 := by
    unfold fanOut
    rw [List.length_eq_zero, List.filter_eq_nil_iff]
    intro e he hc
    exact (hiso e he).1 (by rw [show e.1 = (f, fdef.name) from of_decide_eq_true hc])
  unfold mkFunctionInfo
  rw [hin, hout]
  rfl

/-- association-list lookup is invariant under permutation when the keys are
distinct. -/
theorem lookup_eq_of_perm {β : Type} {l₁ l₂ : List (String × β)}
    (h : l₁.Perm l₂) (nd : (l₁.map Prod.fst).Nodup) (k : String) :
    l₁.lookup k = l₂.lookup k := by
  induction h with
  | nil => rfl
  | cons x h ih =>
    rcases x with ⟨a, b⟩
    rw [List.map_cons] at nd
    rw [List.lookup_cons, List.lookup_cons]
    cases hk : k == a
    · exact ih (List.nodup_cons.mp nd).2
    · rfl
  | swap x y l =>
    rcases x with ⟨a, b⟩
    rcases y with ⟨c, e⟩
    rw [List.map_cons, List.map_cons] at nd
    have hac : c ≠ a := by
      intro hc
      exact (List.nodup_cons.mp nd).1 (by rw [hc]; exact List.mem_cons_self _ _)
    rw [List.lookup_cons, List.lookup_cons, List.lookup_cons, List.lookup_cons]
    cases hk1 : k == c <;> cases hk2 : k == a <;> simp [hk1, hk2]
    exact absurd (by rw [← eq_of_beq hk1, ← eq_of_beq hk2]) hac
  | trans h₁ h₂ ih₁ ih₂ =>
    have nd₂ := ((h₁.map Prod.fst).nodup_iff).mp nd
    exact (ih₁ nd).trans (ih₂ nd₂)

/-- existence checks depend only on the set of paths. -/
theorem pathExists_eq_of_perm {fs1 fs2 : FS} (hf : fs1.files.Perm fs2.files)
    (hd : fs1.dirs = fs2.dirs) (p : String) :
    pathExists fs1 p = pathExists fs2 p := by
  unfold pathExists
  rw [hd]
  have : (p ∈ fs1.files.map Prod.fst) ↔ (p ∈ fs2.files.map Prod.fst) :=
    (hf.map Prod.fst).mem_iff
  rw [decide_eq_decide.mpr this]

/-- the scanner output depends only on the set of paths: any enumeration
order of the filesystem yields the same sorted file list. -/
theorem find_python_files_eq_of_perm {fs1 fs2 : FS}
    (hf : fs1.files.Perm fs2.files) (root : String) :
    find_python_files fs1 root = find_python_files fs2 root := by
  unfold find_python_files
  refine List.eq_of_perm_of_sorted ?_ (List.sorted_insertionSort _ _)
    (List.sorted_insertionSort _ _)
  exact ((List.perm_insertionSort _ _).trans ((hf.map Prod.fst).filter _)).trans
    (List.perm_insertionSort _ _).symm

/-! the claims -/

/-- C1: for every analysis invocation - single file, directory, or upload -
each value of the returned report's results map is a `FileAnalysisResult`
record holding a file identifier and a list of function entries, and its
`file` field always equals the entry's key, so the map's shape is stable and
no caller needs to re-derive or re-key it. -/
theorem C1_stable_report_shape :
    (∀ (fs : FS) (p : String) (r : AnalysisResponse),
      analyze_file fs p = .ok r → ∀ kv ∈ r.results, kv.2.file = kv.1)
    ∧ (∀ (fs : FS) (d : String) (r : AnalysisResponse),
      analyze_directory fs d = .ok r → ∀ kv ∈ r.results, kv.2.file = kv.1)
    ∧ (∀ (fn : String) (c : SourceContent) (tp : String) (r : AnalysisResponse),
      analyze_uploaded_file fn c tp = .ok r → ∀ kv ∈ r.results, kv.2.file = kv.1) := by
  refine ⟨?_, ?_, ?_⟩
  · intro fs p r h kv hkv
    obtain ⟨-, -, v, hv, hres⟩ := analyze_file_ok h
    rw [hres] at hkv
    rw [List.mem_singleton.mp hkv]
    rw [single_file_report_lookup] at hv
    rw [← Option.some.inj hv]
    rfl
  · intro fs d r h kv hkv
    rw [analyze_directory_ok h] at hkv
    obtain ⟨pc, -, hkv⟩ := summarize_mem hkv
    rw [hkv]
  · intro fn c tp r h kv hkv
    unfold analyze_uploaded_file at h
    split at h
    · exact absurd h (fun hc => Except.noConfusion hc)
    · revert h
      split
      · intro h
        rw [← Except.ok.inj h] at hkv
        rw [List.mem_singleton.mp hkv]
      · intro h
        exact absurd h (fun hc => Except.noConfusion hc)

/-- closed instantiation of C1 on the fixtures. -/
theorem C1_stable_report_shape_witness :
    entryFileW.file = "a.py" ∧ entryDirW.file = "a.py" ∧ entryUpW.file = "orig.py" :=
  ⟨C1_stable_report_shape.1 fsBig "d/a.py" respFileW (by decide)
      ("a.py", entryFileW) (by decide),
    C1_stable_report_shape.2.1 fsBig "d" respDirW (by decide)
      ("a.py", entryDirW) (by decide),
    C1_stable_report_shape.2.2 "orig.py" contentW "tmp123.py"
      ⟨[("orig.py", entryUpW)]⟩ (by decide) ("orig.py", entryUpW) (by decide)⟩

/-- C2: the analyze operation fails with `NotFound` (HTTP 404) on every
nonexistent path, with `WrongFileType` (HTTP 400) on every existing path
lacking the `.py` extension, and with `NoSourceFiles` (HTTP 404) on every
existing directory yielding zero source files.  Each statement quantifies
over all file contents, so the failures are decided by the path structure
alone, before any parsing. -/
theorem C2_fail_fast :
    (∀ (fs : FS) (p : String), pathExists fs p = false →
      analyze_file fs p = .error (.notFound ("File " ++ p ++ " does not exist"))
      ∧ analyze_directory fs p =
          .error (.notFound ("Directory " ++ p ++ " does not exist")))
    ∧ (∀ (fs : FS) (p : String), pathExists fs p = true →
      strEndsWith p ".py" = false →
      analyze_file fs p =
        .error (.wrongFileType ("File " ++ p ++ " is not a Python file")))
    ∧ (∀ (fs : FS) (d : String), pathExists fs d = true → isDir fs d = true →
      find_python_files fs d = [] →
      analyze_directory fs d =
        .error (.noSourceFiles ("No Python files found in " ++ d))) := by
  refine ⟨?_, ?_, ?_⟩
  · intro fs p h
    constructor
    · unfold analyze_file
      rw [if_pos]
      simp [h]
    · unfold analyze_directory
      rw [if_pos]
      simp [h]
  · intro fs p h1 h2
    unfold analyze_file
    rw [if_neg, if_pos]
    · simp [h2]
    · simp [h1]
  · intro fs d h1 h2 h3
    unfold analyze_directory
    rw [if_neg, if_pos]
    · simp [h3]
    · simp [h1, h2]

/-- closed instantiation of C2 on the fixtures: a missing path, an existing
non-Python file, and an existing directory with no source files. -/
theorem C2_fail_fast_witness :
    analyze_file fsBig "missing" = .error (.notFound "File missing does not exist")
    ∧ analyze_directory fsBig "missing" =
        .error (.notFound "Directory missing does not exist")
    ∧ analyze_file fsBig "notes.txt" =
        .error (.wrongFileType "File notes.txt is not a Python file")
    ∧ analyze_directory fsBig "e" =
        .error (.noSourceFiles "No Python files found in e") :=
  ⟨(C2_fail_fast.1 fsBig "missing" (by decide)).1,
    (C2_fail_fast.1 fsBig "missing" (by decide)).2,
    C2_fail_fast.2.1 fsBig "notes.txt" (by decide) (by decide),
    C2_fail_fast.2.2 fsBig "e" (by decide) (by decide) (by decide)⟩

/-- C3: every function of a directory report is marked `is_entry_point` true
exactly when its reported `fan_in` is zero, and the Analyzer's entry-point
flag for a function node is true exactly when no resolved edge of the graph
terminates at that node (no other analyzed function holds an edge into it). -/
theorem C3_entry_point_iff_fan_in_zero :
    (∀ (fs : FS) (d : String) (r : AnalysisResponse),
      analyze_directory fs d = .ok r → ∀ kv ∈ r.results, ∀ fi ∈ kv.2.functions,
        (fi.is_entry_point = true ↔ fi.fan_in = 0))
    ∧ (∀ (g : List (Node × Node)) (p : String) (fdef : FunctionDef),
      (mkFunctionInfo g p fdef).is_entry_point = true ↔
        ∀ e ∈ g, e.2 ≠ (p, fdef.name)) := by
  constructor
  · intro fs d r h kv hkv fi hfi
    rw [analyze_directory_ok h] at hkv
    obtain ⟨pc, -, rfl⟩ := summarize_mem hkv
    obtain ⟨fdef, -, rfl⟩ := List.mem_map.mp hfi
    simp [mkFunctionInfo]
  · intro g p fdef
    simp only [mkFunctionInfo, beq_iff_eq]
    unfold fanIn
    rw [List.length_eq_zero, List.filter_eq_nil_iff]
    constructor
    · intro hall e he hc
      exact absurd (decide_eq_true (p := e.2 = (p, fdef.name)) hc) (hall e he)
    · intro hall e he hc
      exact hall e he (of_decide_eq_true hc)

/-- closed instantiation of C3: the `bar` row of the directory report of
`fsBig`, and the entry-point flag of `bar`'s node against the one-edge
graph. -/
theorem C3_entry_point_iff_fan_in_zero_witness :
    (barInfoDirW.is_entry_point = true ↔ barInfoDirW.fan_in = 0)
    ∧ ((mkFunctionInfo gW "d/a.py" barDefW).is_entry_point = true ↔
        ∀ e ∈ gW, e.2 ≠ ("d/a.py", "bar")) :=
  ⟨C3_entry_point_iff_fan_in_zero.1 fsBig "d" respDirW (by decide)
      ("a.py", entryDirW) (by decide) barInfoDirW (by decide),
    C3_entry_point_iff_fan_in_zero.2 gW "d/a.py" barDefW⟩

/-- C4: the Analyzer's reported `fan_out` of a function equals the number of
distinct resolved edges of the dependency graph originating at its node, its
`fan_in` equals the number of distinct resolved edges terminating at it -
both natural numbers, hence non-negative, and functions of the edge set alone
- and every directory report is exactly the summary built from that graph. -/
theorem C4_fan_counts :
    (∀ (fileData : List (String × ParsedFile)) (p : String) (fdef : FunctionDef),
      (mkFunctionInfo (build_dependency_graph fileData) p fdef).fan_out
          = ((build_dependency_graph fileData).filter
              (fun e => decide (e.1 = (p, fdef.name)))).dedup.length
        ∧ (mkFunctionInfo (build_dependency_graph fileData) p fdef).fan_in
          = ((build_dependency_graph fileData).filter
              (fun e => decide (e.2 = (p, fdef.name)))).dedup.length)
    ∧ (∀ (fs : FS) (d : String) (r : AnalysisResponse),
      analyze_directory fs d = .ok r →
        r.results =
          summarize_analysis (directoryGraph fs d) (directoryFileData fs d)) := by
  constructor
  · intro fileData p fdef
    have hnd : (build_dependency_graph fileData).Nodup := by
      unfold build_dependency_graph
      exact List.nodup_dedup _
    constructor
    · rw [List.dedup_eq_self.mpr (hnd.filter _)]
      rfl
    · rw [List.dedup_eq_self.mpr (hnd.filter _)]
      rfl
  · intro fs d r h
    exact analyze_directory_ok h

/-- closed instantiation of C4: the counts of `bar`'s node in the graph built
from `fsBig`'s records, and the report equation for `fsBig`'s directory. -/
theorem C4_fan_counts_witness :
    ((mkFunctionInfo (build_dependency_graph fdW) "d/a.py" barDefW).fan_out
        = ((build_dependency_graph fdW).filter
            (fun e => decide (e.1 = ("d/a.py", "bar")))).dedup.length
      ∧ (mkFunctionInfo (build_dependency_graph fdW) "d/a.py" barDefW).fan_in
        = ((build_dependency_graph fdW).filter
            (fun e => decide (e.2 = ("d/a.py", "bar")))).dedup.length)
    ∧ respDirW.results =
        summarize_analysis (directoryGraph fsBig "d") (directoryFileData fsBig "d") :=
  ⟨C4_fan_counts.1 fdW "d/a.py" barDefW,
    C4_fan_counts.2 fsBig "d" respDirW (by decide)⟩

/-- C5: a malformed file in a directory batch does not fail the batch: the
analysis succeeds, the malformed file's entry has an empty function list and
carries its parse diagnostic, and every sibling valid file still appears with
all of its functions fully analyzed. -/
theorem C5_malformed_isolated (fs : FS) (d m diag : String)
    (hEx : pathExists fs d = true) (hDir : isDir fs d = true)
    (hm : m ∈ find_python_files fs d)
    (hbad : getContent fs m = .malformed diag)
    (hnd : ((find_python_files fs d).map basename).Nodup) :
    analyze_directory fs d = .ok ⟨directoryReport fs d⟩
    ∧ (directoryReport fs d).lookup (basename m)
        = some ⟨basename m, [], some diag⟩
    ∧ ∀ p ∈ find_python_files fs d, ∀ fns, getContent fs p = .wellFormed fns →
        (directoryReport fs d).lookup (basename p)
          = some ⟨basename p,
              fns.map (mkFunctionInfo (directoryGraph fs d) p), none⟩ := by
  have hndk : ((directoryFileData fs d).map (fun pc => basename pc.1)).Nodup := by
    rw [directoryFileData_keys]
    exact hnd
  refine ⟨analyze_directory_eq_ok hEx hDir (List.ne_nil_of_mem hm), ?_, ?_⟩
  · have hmem : (m, parse_python_file (getContent fs m)) ∈ directoryFileData fs d :=
      List.mem_map_of_mem _ hm
    rw [hbad] at hmem
    have hl := summarize_lookup (g := directoryGraph fs d) hmem hndk
    simpa [directoryReport, parse_python_file] using hl
  · intro p hp fns hgood
    have hmem : (p, parse_python_file (getContent fs p)) ∈ directoryFileData fs d :=
      List.mem_map_of_mem _ hp
    rw [hgood] at hmem
    have hl := summarize_lookup (g := directoryGraph fs d) hmem hndk
    simpa [directoryReport, parse_python_file] using hl

/-- closed instantiation of C5 on a directory with one malformed and one
valid file. -/
theorem C5_malformed_isolated_witness :
    analyze_directory fsMal "m" = .ok ⟨directoryReport fsMal "m"⟩
    ∧ (directoryReport fsMal "m").lookup "bad.py"
        = some ⟨"bad.py", [], some "SyntaxError: invalid syntax"⟩
    ∧ (directoryReport fsMal "m").lookup "good.py"
        = some ⟨"good.py",
            [gDefW].map (mkFunctionInfo (directoryGraph fsMal "m") "m/good.py"),
            none⟩ := by
  have h := C5_malformed_isolated fsMal "m" "m/bad.py" "SyntaxError: invalid syntax"
    (by decide) (by decide) (by decide) (by decide) (by decide)
  exact ⟨h.1, h.2.1, h.2.2 "m/good.py" (by decide) [gDefW] (by decide)⟩

/-- C6: a directory holding exactly N (N >= 1) source files with pairwise
distinct base names yields a report with exactly N keys, one per file, in
scan order.  (An empty directory never returns a report: it fails with
`NoSourceFiles`, see C2.) -/
theorem C6_one_key_per_file (fs : FS) (d : String) (N : Nat)
    (hEx : pathExists fs d = true) (hDir : isDir fs d = true)
    (hN : (find_python_files fs d).length = N) (hpos : 0 < N)
    (hnd : ((find_python_files fs d).map basename).Nodup) :
    analyze_directory fs d = .ok ⟨directoryReport fs d⟩
    ∧ (directoryReport fs d).length = N
    ∧ (directoryReport fs d).map Prod.fst = (find_python_files fs d).map basename
    ∧ ((directoryReport fs d).map Prod.fst).Nodup := by
  have hne : find_python_files fs d ≠ [] := by
    intro hc
    rw [hc] at hN
    simp at hN
    omega
  refine ⟨analyze_directory_eq_ok hEx hDir hne, ?_, directoryReport_keys fs d, ?_⟩
  · unfold directoryReport summarize_analysis directoryFileData
    simp [hN]
  · rw [directoryReport_keys]
    exact hnd

/-- closed instantiation of C6 on a directory with two distinct files. -/
theorem C6_one_key_per_file_witness :
    analyze_directory fsMal "m" = .ok ⟨directoryReport fsMal "m"⟩
    ∧ (directoryReport fsMal "m").length = 2
    ∧ (directoryReport fsMal "m").map Prod.fst
        = (find_python_files fsMal "m").map basename
    ∧ ((directoryReport fsMal "m").map Prod.fst).Nodup :=
  C6_one_key_per_file fsMal "m" 2 (by decide) (by decide) (by decide)
    (by decide) (by decide)

/-- C7 is false as stated: in `fsBig`'s directory `d` the only source file
`d/a.py` makes no cross-file references (it has no sibling at all), yet the
single-file route and the directory route disagree on its entry, because
`analyze_file` builds a minimal graph with no edges while the directory
analysis resolves the same-file call from `foo` to `bar`, giving `bar`
fan-in 1 and `is_entry_point` false there. -/
theorem C7_counterexample :
    ¬ ((analyze_file fsBig "d/a.py").map (fun r => r.results.lookup "a.py")
      = (analyze_directory fsBig "d").map (fun r => r.results.lookup "a.py")) := by
  decide

/-- C7 (amended): for every analyzed file f of a directory such that no
resolved edge of the directory's dependency graph starts or ends at f - its
functions resolve no reference to any analyzed function, same-file included,
and no analyzed function resolves a reference into f - and base names are
pairwise distinct, single-file analysis of f produces exactly the function
entries the directory analysis assigns to f. -/
theorem C7_single_vs_directory (fs : FS) (d f : String)
    (hEx : pathExists fs d = true) (hDir : isDir fs d = true)
    (hf : f ∈ find_python_files fs d)
    (hnd : ((find_python_files fs d).map basename).Nodup)
    (hiso : ∀ e ∈ directoryGraph fs d, e.1.1 ≠ f ∧ e.2.1 ≠ f) :
    (analyze_file fs f).map (fun r => r.results.lookup (basename f))
      = (analyze_directory fs d).map (fun r => r.results.lookup (basename f)) := by
  have hfin : f ∈ (fs.files.map Prod.fst).filter
      (fun q => isUnder d q && strEndsWith q ".py") := by
    have hf' := hf
    unfold find_python_files at hf'
    exact (List.mem_insertionSort (r := pathLe)).mp hf'
  have hmem' := List.mem_filter.mp hfin
  have hex : pathExists fs f = true := by
    unfold pathExists
    rw [decide_eq_true hmem'.1]
    rfl
  have hpy : strEndsWith f ".py" = true := by
    have hb := hmem'.2
    simp only [Bool.and_eq_true] at hb
    exact hb.2
  rw [analyze_file_eq_ok hex hpy,
    analyze_directory_eq_ok hEx hDir (List.ne_nil_of_mem hf)]
  simp only [Except.map]
  congr 1
  have hmem : (f, parse_python_file (getContent fs f)) ∈ directoryFileData fs d :=
    List.mem_map_of_mem _ hf
  have hndk : ((directoryFileData fs d).map (fun pc => basename pc.1)).Nodup := by
    rw [directoryFileData_keys]
    exact hnd
  have hdir : (directoryReport fs d).lookup (basename f)
      = some ⟨basename f,
          (parse_python_file (getContent fs f)).functions.map
            (mkFunctionInfo (directoryGraph fs d) f),
          (parse_python_file (getContent fs f)).parseError⟩ :=
    summarize_lookup (g := directoryGraph fs d) hmem hndk
  rw [List.lookup_cons]
  simp only [beq_self_eq_true]
  rw [hdir]
  have hmk : mkFunctionInfo (directoryGraph fs d) f = mkFunctionInfo [] f :=
    funext (fun fdef => mkFunctionInfo_isolated hiso fdef)
  rw [hmk]
  rfl

/-- closed instantiation of the amended C7 on a directory of two files with
no references. -/
theorem C7_single_vs_directory_witness :
    (analyze_file fsIso "p/a.py").map (fun r => r.results.lookup "a.py")
      = (analyze_directory fsIso "p").map (fun r => r.results.lookup "a.py") :=
  C7_single_vs_directory fsIso "p" "p/a.py" (by decide) (by decide) (by decide)
    (by decide) (by decide)

/-- C8: the analysis is a deterministic function of the input: for the same
path structure and contents - any enumeration order of the filesystem with
distinct paths - both analyze operations return identical reports; the scan
order is fixed lexicographically, so graph construction and report contents
are reproducible. -/
theorem C8_determinism (fs1 fs2 : FS) (p d : String)
    (hfiles : fs1.files.Perm fs2.files) (hdirs : fs1.dirs = fs2.dirs)
    (hnd : (fs1.files.map Prod.fst).Nodup) :
    analyze_file fs1 p = analyze_file fs2 p
    ∧ analyze_directory fs1 d = analyze_directory fs2 d := by
  have hex : ∀ q, pathExists fs1 q = pathExists fs2 q :=
    fun q => pathExists_eq_of_perm hfiles hdirs q
  have hct : getContent fs1 = getContent fs2 := by
    funext q
    unfold getContent
    rw [lookup_eq_of_perm hfiles hnd q]
  have hid : ∀ q, isDir fs1 q = isDir fs2 q := by
    intro q
    unfold isDir
    rw [hdirs]
  have hfind : ∀ q, find_python_files fs1 q = find_python_files fs2 q :=
    fun q => find_python_files_eq_of_perm hfiles q
  constructor
  · unfold analyze_file single_file_report
    simp only [hex, hct]
  · unfold analyze_directory directoryReport directoryGraph directoryFileData
    simp only [hex, hid, hfind, hct]

/-- closed instantiation of C8: the same filesystem enumerated in two
different orders yields identical analyses. -/
theorem C8_determinism_witness :
    analyze_file fsIso "p/a.py" = analyze_file fsIsoSwap "p/a.py"
    ∧ analyze_directory fsIso "p" = analyze_directory fsIsoSwap "p" :=
  C8_determinism fsIso fsIsoSwap "p/a.py" "p" (by decide) (by decide) (by decide)

/-- C9: on an existing `.py` path, `analyze_file` fails with
`NoAnalysisAvailable` exactly when the file's base name is absent from the
computed report, and whenever the base name is present the returned report
holds exactly that one key. -/
theorem C9_no_analysis_available (fs : FS) (p : String)
    (h1 : pathExists fs p = true) (h2 : strEndsWith p ".py" = true) :
    (analyze_file fs p
        = .error (.noAnalysisAvailable ("No analysis available for " ++ basename p))
      ↔ (single_file_report fs p).lookup (basename p) = none)
    ∧ ∀ v, (single_file_report fs p).lookup (basename p) = some v →
        analyze_file fs p = .ok ⟨[(basename p, v)]⟩ := by
  constructor
  · rw [single_file_report_lookup, analyze_file_eq_ok h1 h2]
    constructor
    · intro hc
      exact Except.noConfusion hc
    · intro hc
      exact Option.noConfusion hc
  · intro v hv
    rw [single_file_report_lookup] at hv
    rw [analyze_file_eq_ok h1 h2, Option.some.inj hv]

/-- closed instantiation of C9 on `fsBig`. -/
theorem C9_no_analysis_available_witness :
    ((analyze_file fsBig "d/a.py"
        = .error (.noAnalysisAvailable "No analysis available for a.py")
      ↔ (single_file_report fsBig "d/a.py").lookup "a.py" = none)
    ∧ analyze_file fsBig "d/a.py" = .ok ⟨[("a.py", entryFileW)]⟩) :=
  ⟨(C9_no_analysis_available fsBig "d/a.py" (by decide) (by decide)).1,
    (C9_no_analysis_available fsBig "d/a.py" (by decide) (by decide)).2
      entryFileW (by decide)⟩

/-- C10: when a request to `explain_code` supplies none of `file_path`,
`directory_path` or `code_analysis`, the 400 `HTTPException` it constructs is
caught by the route's own blanket `except Exception` handler: the call
returns a normal (non-error-status) response whose body carries only the
error string, for every filesystem and every agent. -/
theorem C10_blanket_handler (fs : FS)
    (agent : String → List (String × FileAnalysisResult) → AnalyzerAgentResponse)
    (q : String) :
    explain_code fs agent ⟨q, none, none, none⟩
      = .response { error := some (excStr (.httpExc 400
          "Either file_path, directory_path, or code_analysis must be provided")) } :=
  rfl

end AnalyzerApi
